import Mathlib

/-!
Verification development for the liquidity dashboard pipeline
(`liquidity_dashboard.py`): the FRED series fetcher, the merge/score
engine and the overlay/rebase utility, shallowly embedded in Lean.
Dates are modelled as natural-number ordinals, raw data values as
rationals, and derived scores as reals (the standard deviation involves
a square root).
-/

namespace LiquidityDashboard

/-- A parsed CSV response: column names plus rows of cells.  A cell is
`none` when the field is empty (pandas reads an empty field as NaN). -/
structure CsvTable where
  columns : List String
  rows : List (List (Option String))

/-- Model of date/number parsing on a raw field: strings of decimal
digits parse to their numeric value, anything else fails.  This keeps
the parse/fail structure of `pd.to_datetime` / `pd.to_numeric` while
staying executable. -/
def parseNat (s : String) : Option Nat :=
  let cs := s.data
  if cs ≠ [] ∧ cs.all Char.isDigit then
    some (cs.foldl (fun a c => a * 10 + (c.toNat - 48)) 0)
  else none

/-- Value parsing (`pd.to_numeric(..., errors="coerce")` on one cell):
an unparseable field becomes missing, never an error. -/
def parseQ (s : String) : Option ℚ :=
  (parseNat s).map (fun n => (n : ℚ))

/-- Cell of a row at a column index; out-of-range or empty is missing. -/
def cell (r : List (Option String)) (i : Nat) : Option String :=
  (r.get? i).join

/-- `date_col = "DATE" if "DATE" in df.columns else df.columns[0]` —
index of the date column, from the column names. -/
def dIdx (columns : List String) : Nat :=
  if "DATE" ∈ columns then columns.indexOf "DATE" else 0

/-- `value_col = series_id if series_id in df.columns else df.columns[1]` —
index of the value column. -/
def vIdx (sid : String) (columns : List String) : Nat :=
  if sid ∈ columns then columns.indexOf sid else 1

/-- `pd.to_datetime(df["date"])` uses `errors="raise"`: a non-missing
date cell that does not parse raises.  (A missing cell becomes NaT
without raising.) -/
def dateRaises (i : Nat) (r : List (Option String)) : Bool :=
  match cell r i with
  | some s => (parseNat s).isNone
  | none => false

/-- One row after coercion and `dropna(subset=["date", "value"])`:
kept exactly when both the date and the value parse. -/
def parsedRow (di vi : Nat) (r : List (Option String)) : Option (Nat × ℚ) :=
  match (cell r di).bind parseNat, (cell r vi).bind parseQ with
  | some d, some v => some (d, v)
  | _, _ => none

/-- `df.rename(columns={date_col: "date", value_col: "value"})` on the
column names: a Python dict literal with equal keys collapses to the
later entry, and `rename` renames every column bearing the name. -/
def renameCols (dName vName : String) (cols : List String) : List String :=
  if dName = vName then cols.map (fun c => if c = vName then "value" else c)
  else cols.map (fun c =>
    if c = dName then "date" else if c = vName then "value" else c)

/-- The column names after the rename, with the date and value columns
resolved by `dIdx`/`vIdx`. -/
def renamedColumns (sid : String) (columns : List String) : List String :=
  renameCols (columns.getD (dIdx columns) "")
    (columns.getD (vIdx sid columns) "") columns

/-- `load_fred_series` applied to an already-downloaded CSV table.
Error paths of the source, in order: `df.columns[0]` on a columnless
frame and `df.columns[1]` when the series id is absent from a
single-column frame raise IndexError; the `df["date"]` / `df["value"]`
lookups after the rename raise unless exactly one renamed column is
named `date` and exactly one `value` (in particular the rename dict
collapses when the resolved date and value columns coincide);
`pd.to_datetime` raises on an unparseable non-missing date.  Rows with
a missing date or an uncoercible value are dropped. -/
def load_fred_series (sid : String) (t : CsvTable) :
    Except Unit (List (Nat × ℚ)) :=
  if t.columns = [] then Except.error ()
  else if sid ∉ t.columns ∧ t.columns.length < 2 then Except.error ()
  else if (renamedColumns sid t.columns).count "date" ≠ 1 ∨
      (renamedColumns sid t.columns).count "value" ≠ 1 then Except.error ()
  else if t.rows.any (dateRaises (dIdx t.columns)) then Except.error ()
  else Except.ok
    (t.rows.filterMap (parsedRow (dIdx t.columns) (vIdx sid t.columns)))

/-- The dates of a returned series are strictly increasing (hence
unique and chronologically sorted). -/
def datesStrictMono (l : List (Nat × ℚ)) : Prop :=
  (l.map Prod.fst).Pairwise (fun a b => a < b)

/-- Dates of the source rows (at date-column index `i`) that parse,
in response order. -/
def parsedDates (i : Nat) (t : CsvTable) : List Nat :=
  t.rows.filterMap (fun r => (cell r i).bind parseNat)

/-! ## Merge engine: `load_all_fred` -/

/-- A row of the merged wide table before `dropna()`: one date, one
optional value per catalog label (TGA, Fed balance sheet, SOMA, bank
reserves, reverse repo); `none` models NaN from the outer join. -/
structure MRow where
  date : Nat
  tga : Option ℚ
  walcl : Option ℚ
  soma : Option ℚ
  wresbal : Option ℚ
  rrp : Option ℚ
deriving DecidableEq

/-- `df[df["date"] >= pd.to_datetime(start_date)]`. -/
def filterFrom (start : Nat) (s : List (Nat × ℚ)) : List (Nat × ℚ) :=
  s.filter (fun p => decide (start ≤ p.1))

/-- Value of a series at a date, if present. -/
def lookupD (s : List (Nat × ℚ)) (d : Nat) : Option ℚ :=
  (s.find? (fun p => p.1 == d)).map Prod.snd

/-- Insert a date into a strictly sorted date list, keeping it strictly
sorted (duplicate keys collapse, as merge keys do for distinct-dated
series). -/
def insertDate (d : Nat) : List Nat → List Nat
  | [] => [d]
  | x :: xs =>
    if d < x then d :: x :: xs
    else if d = x then x :: xs
    else x :: insertDate d xs

/-- The union of all observed dates, sorted ascending: the date axis of
the outer join after `sort_values("date")`. -/
def sortedDates (ds : List Nat) : List Nat :=
  ds.foldr insertDate []

/-- A merged row is complete when every catalog column is non-missing. -/
def complete (r : MRow) : Bool :=
  r.tga.isSome && r.walcl.isSome && r.soma.isSome && r.wresbal.isSome &&
    r.rrp.isSome

/-- `dropna()` on the merged frame: keep only complete rows. -/
def dropna (rs : List MRow) : List MRow :=
  rs.filter complete

/-- `load_all_fred`: filter each fetched catalog series to
`date >= start`, outer-join the five on date, sort by date ascending,
drop rows with any missing catalog value.  The five series stand for
the successful `load_fred_series` results, in catalog order. -/
def load_all_fred (s1 s2 s3 s4 s5 : List (Nat × ℚ)) (start : Nat) :
    List MRow :=
  let f1 := filterFrom start s1
  let f2 := filterFrom start s2
  let f3 := filterFrom start s3
  let f4 := filterFrom start s4
  let f5 := filterFrom start s5
  let ds := sortedDates (f1.map Prod.fst ++ f2.map Prod.fst ++
    f3.map Prod.fst ++ f4.map Prod.fst ++ f5.map Prod.fst)
  dropna (ds.map (fun d =>
    ⟨d, lookupD f1 d, lookupD f2 d, lookupD f3 d, lookupD f4 d,
      lookupD f5 d⟩))

/-! ## Scoring engine: `compute_liquidity_scores` -/

/-- A complete observation row, the input of the scoring step (after
`dropna()` every catalog value is present). -/
structure CRow where
  date : Nat
  tga : ℚ
  walcl : ℚ
  soma : ℚ
  wresbal : ℚ
  rrp : ℚ
deriving DecidableEq, Inhabited

/-- The complete merged rows as scoring input. -/
def completeRows (rs : List MRow) : List CRow :=
  rs.filterMap (fun r =>
    match r.tga, r.walcl, r.soma, r.wresbal, r.rrp with
    | some a, some b, some c, some d, some e =>
      some ⟨r.date, a, b, c, d, e⟩
    | _, _, _, _, _ => none)

/-- `out[col].mean()`. -/
def meanQ (xs : List ℚ) : ℚ := xs.sum / xs.length

/-- Sample variance with pandas' `ddof=1` denominator.  For fewer than
two observations pandas yields NaN; since NaN is truthy in Python the
`or` keeps it and the all-NaN z row later sums (skipna) to 0 — the same
final `liquidity_z` this 0-variance branch produces, so the model uses
0 there. -/
def sampleVar (xs : List ℚ) : ℚ :=
  if xs.length ≤ 1 then 0
  else ((xs.map (fun x => (x - meanQ xs) ^ 2)).sum) / (xs.length - 1)

/-- `out[col].std()`: the square root of the sample variance. -/
noncomputable def pstd (xs : List ℚ) : ℝ :=
  Real.sqrt ((sampleVar xs : ℚ) : ℝ)

/-- `out[col].std() or 1e-9`: Python's `or` substitutes `1e-9` exactly
when the computed standard deviation is falsy, i.e. zero. -/
noncomputable def stdOr (xs : List ℚ) : ℝ :=
  if pstd xs = 0 then 1 / 1000000000 else pstd xs

/-- `(out[col] - mean) / std`. -/
noncomputable def zScore (x mean : ℚ) (std : ℝ) : ℝ :=
  ((x : ℝ) - (mean : ℝ)) / std

/-- The TGA column's contribution to `liquidity_z`:
`out["TGA (WTREGEN)_z"] *= -1` — the z-score, sign-inverted. -/
noncomputable def tgaContribution (x mean : ℚ) (std : ℝ) : ℝ :=
  -(zScore x mean std)

/-- The reverse-repo column's contribution to `liquidity_z`:
`out["Reverse Repo (ON RRP)_z"] *= -1`. -/
noncomputable def rrpContribution (x mean : ℚ) (std : ℝ) : ℝ :=
  -(zScore x mean std)

/-- `out["liquidity_z"].rank(pct=True)`: count of strictly smaller
values. -/
noncomputable def countLT (xs : List ℝ) (x : ℝ) : Nat :=
  xs.countP (fun y => decide (y < x))

/-- Count of values tied with `x` (including `x` itself). -/
noncomputable def countEQ (xs : List ℝ) (x : ℝ) : Nat :=
  xs.countP (fun y => decide (y = x))

/-- Average-rank of `x` within `xs` (pandas `rank(method="average")`):
ties occupy consecutive positions and share their mean position. -/
noncomputable def rankAvg (xs : List ℝ) (x : ℝ) : ℝ :=
  (countLT xs x : ℝ) + ((countEQ xs x : ℝ) + 1) / 2

/-- `rank(pct=True)`: average-rank divided by the number of values. -/
noncomputable def rankPct (xs : List ℝ) (x : ℝ) : ℝ :=
  rankAvg xs x / (xs.length : ℝ)

/-- A scored row: the raw columns, the five z-score columns (with sign
inversion already applied, as in the source where `*= -1` precedes the
row sum), their sum `liquidity_z`, and the percentile `liquidity_index`. -/
structure SRow where
  date : Nat
  tga : ℚ
  walcl : ℚ
  soma : ℚ
  wresbal : ℚ
  rrp : ℚ
  tga_z : ℝ
  walcl_z : ℝ
  soma_z : ℝ
  wresbal_z : ℝ
  rrp_z : ℝ
  liquidity_z : ℝ
  liquidity_index : ℝ
deriving Inhabited

/-- `liquidity_z` of one row: the row-wise sum of the five z-score
columns, sign inversion for TGA and reverse repo already applied; each
column's mean and `std or 1e-9` divisor are taken over the full
retained range. -/
noncomputable def liqRow (rows : List CRow) (r : CRow) : ℝ :=
  tgaContribution r.tga (meanQ (rows.map CRow.tga))
      (stdOr (rows.map CRow.tga)) +
    zScore r.walcl (meanQ (rows.map CRow.walcl))
      (stdOr (rows.map CRow.walcl)) +
    zScore r.soma (meanQ (rows.map CRow.soma))
      (stdOr (rows.map CRow.soma)) +
    zScore r.wresbal (meanQ (rows.map CRow.wresbal))
      (stdOr (rows.map CRow.wresbal)) +
    rrpContribution r.rrp (meanQ (rows.map CRow.rrp))
      (stdOr (rows.map CRow.rrp))

/-- `compute_liquidity_scores`: per-column z-scores over the full
retained range (with the `or 1e-9` divisor), sign inversion for TGA and
reverse repo, row-wise sum into `liquidity_z`, percentile rank scaled
to 0–100 into `liquidity_index`.  The input frame is returned with the
derived columns added. -/
noncomputable def compute_liquidity_scores (rows : List CRow) : List SRow :=
  rows.map (fun r =>
    ⟨r.date, r.tga, r.walcl, r.soma, r.wresbal, r.rrp,
      tgaContribution r.tga (meanQ (rows.map CRow.tga))
        (stdOr (rows.map CRow.tga)),
      zScore r.walcl (meanQ (rows.map CRow.walcl))
        (stdOr (rows.map CRow.walcl)),
      zScore r.soma (meanQ (rows.map CRow.soma))
        (stdOr (rows.map CRow.soma)),
      zScore r.wresbal (meanQ (rows.map CRow.wresbal))
        (stdOr (rows.map CRow.wresbal)),
      rrpContribution r.rrp (meanQ (rows.map CRow.rrp))
        (stdOr (rows.map CRow.rrp)),
      liqRow rows r,
      rankPct (rows.map (liqRow rows)) (liqRow rows r) * 100⟩)

/-! ## Overlay/rebase utility -/

/-- A row of the overlay table with the two rebased columns. -/
structure OverlayRow where
  date : Nat
  liquidity_index : ℝ
  price : ℚ
  liq_rebase : ℝ
  sp_rebase : ℝ

/-- `pd.merge(df[["date", "liquidity_index"]], sp, on="date",
how="inner")`: keep the scored rows whose date the reference series
also has, in left order. -/
noncomputable def innerJoin (df : List SRow) (sp : List (Nat × ℚ)) :
    List (Nat × ℝ × ℚ) :=
  df.filterMap (fun r =>
    (lookupD sp r.date).map (fun v => (r.date, r.liquidity_index, v)))

/-- The overlay tab: inner-join on date; when non-empty, rebase both
series by dividing every value by that series' value at the first
joined row (`.iloc[0]` — the anchor of the joined range). -/
noncomputable def overlayTab (df : List SRow) (sp : List (Nat × ℚ)) :
    List OverlayRow :=
  match innerJoin df sp with
  | [] => []
  | q0 :: rest =>
    (q0 :: rest).map (fun q =>
      ⟨q.1, q.2.1, q.2.2, q.2.1 / q0.2.1, (q.2.2 : ℝ) / (q0.2.2 : ℝ)⟩)

/-! ## Concrete frames and tables used to instantiate the theorems -/

/-- A CSV response whose second row has an unparseable date field. -/
def tblBadDate : CsvTable :=
  ⟨["DATE", "VAL"], [[some "1", some "7"], [some "x", some "8"]]⟩

/-- A CSV response with no recognized date-column alias at all. -/
def tblNoAlias : CsvTable :=
  ⟨["when", "VAL"], [[some "3", some "7"]]⟩

/-- A CSV response whose parseable rows are out of order and repeat a
date. -/
def tblUnsorted : CsvTable :=
  ⟨["DATE", "VAL"],
    [[some "2", some "5"], [some "1", some "6"], [some "1", some "8"]]⟩

/-- A well-formed CSV response with strictly increasing dates. -/
def tblSorted : CsvTable :=
  ⟨["DATE", "VAL"], [[some "1", some "5"], [some "2", some "6"]]⟩

/-- A one-observation complete frame for instantiating the scoring
theorems. -/
def demoRows : List CRow :=
  [⟨0, 1, 2, 3, 4, 5⟩]

/-- A one-row scored frame for instantiating the overlay theorems. -/
noncomputable def demoScored : List SRow :=
  [⟨0, 0, 0, 0, 0, 0, 0, 0, 0, 0, 0, 0, 50⟩]

/-- A one-point reference price series sharing the date of
`demoScored`. -/
def demoPrices : List (Nat × ℚ) :=
  [(0, 2)]

/-! ## Fetcher lemmas -/

/-- A row whose value cell does not coerce contributes nothing to the
parsed series. -/
theorem parsedRow_eq_none_of_value_none (di vi : Nat)
    (r : List (Option String)) (h : (cell r vi).bind parseQ = none) :
    parsedRow di vi r = none := by
  unfold parsedRow
  rw [h]
  cases (cell r di).bind parseNat <;> rfl

/-- A kept row's date is the parse of its date cell. -/
theorem parsedRow_date_eq (di vi : Nat) (r : List (Option String))
    (p : Nat × ℚ) (h : parsedRow di vi r = some p) :
    (cell r di).bind parseNat = some p.1 := by
  unfold parsedRow at h
  revert h
  cases h1 : (cell r di).bind parseNat <;>
    cases h2 : (cell r vi).bind parseQ <;> intro h
  · exact absurd h (by simp)
  · exact absurd h (by simp)
  · exact absurd h (by simp)
  · exact congrArg some (congrArg Prod.fst (Option.some_inj.mp h))

/-- The dates of the kept rows form a sublist of the parsed dates of
all rows, in response order. -/
theorem map_fst_filterMap_sublist (di vi : Nat)
    (rows : List (List (Option String))) :
    ((rows.filterMap (parsedRow di vi)).map Prod.fst).Sublist
      (rows.filterMap (fun r => (cell r di).bind parseNat)) := by
  induction rows with
  | nil => simp
  | cons r rs ih =>
    simp only [List.filterMap_cons]
    cases hp : parsedRow di vi r with
    | none =>
      cases hd : (cell r di).bind parseNat with
      | none => exact ih
      | some d => exact List.Sublist.cons d ih
    | some p =>
      rw [parsedRow_date_eq di vi r p hp]
      simpa using List.Sublist.cons₂ p.1 ih

/-- C3 counterexample: on a response whose second row has the
unparseable date field `"x"`, the fetcher raises
(`pd.to_datetime(..., errors="raise")`) instead of dropping the row. -/
theorem load_fred_series_raises_on_bad_date :
    load_fred_series "VAL" tblBadDate = Except.error () := rfl

/-- C3 (amended): a row whose *value* field cannot be coerced — and
whose date field is missing or parseable — is silently dropped, all
other rows are kept: removing it from the response leaves the fetch
result unchanged. -/
theorem bad_value_row_silently_dropped (sid : String) (cols : List String)
    (pre post : List (List (Option String))) (bad : List (Option String))
    (hdate : dateRaises (dIdx cols) bad = false)
    (hval : (cell bad (vIdx sid cols)).bind parseQ = none) :
    load_fred_series sid ⟨cols, pre ++ bad :: post⟩ =
      load_fred_series sid ⟨cols, pre ++ post⟩ := by
  unfold load_fred_series
  have hnone : parsedRow (dIdx cols) (vIdx sid cols) bad = none :=
    parsedRow_eq_none_of_value_none _ _ _ hval
  simp [List.any_append, List.any_cons, List.filterMap_append,
    List.filterMap_cons, hdate, hnone]

/-- Witness for the amended C3 statement at a concrete response: the
middle row's value field `"oops"` is dropped, the surrounding rows are
kept. -/
theorem bad_value_row_silently_dropped_witness :
    load_fred_series "VAL"
        ⟨["DATE", "VAL"],
          [[some "1", some "2"]] ++
            [some "3", some "oops"] :: [[some "4", some "5"]]⟩ =
      load_fred_series "VAL"
        ⟨["DATE", "VAL"], [[some "1", some "2"]] ++ [[some "4", some "5"]]⟩ :=
  bad_value_row_silently_dropped "VAL" ["DATE", "VAL"] _ _ _
    (by decide) (by decide)

/-- C8 counterexample: a response with no recognized date-column alias
(neither `"DATE"` nor `"observation_date"`) is fetched successfully —
the first column is silently used — rather than failing. -/
theorem load_fred_series_no_alias_still_succeeds :
    ("DATE" ∉ tblNoAlias.columns ∧
        "observation_date" ∉ tblNoAlias.columns) ∧
      load_fred_series "VAL" tblNoAlias = Except.ok [(3, (7 : ℚ))] :=
  ⟨⟨by decide, by decide⟩, rfl⟩

/-- A single-column response without the series id fails — the
program's `df.columns[1]` raises IndexError — even though its dates
parse. -/
theorem load_fred_series_missing_value_column_errors :
    load_fred_series "VAL" ⟨["obs"], [[some "3"]]⟩ = Except.error () := rfl

/-- A response whose resolved value column is the date column itself
fails: the rename dict collapses to `{col: "value"}` and the program's
`df["date"]` raises KeyError. -/
theorem load_fred_series_rename_collision_errors :
    load_fred_series "VAL" ⟨["VAL"], [[some "3"]]⟩ = Except.error () := rfl

/-- C8 (amended): the date column is the one literally named `"DATE"`
when present; otherwise the *first* column is silently used as the
date column, and the fetch succeeds — the missing alias never causes a
failure — provided the response shape is otherwise fetchable: the
value column resolves (series id present, or a second column to fall
back to), the renamed frame has exactly one `date` and one `value`
column (excluding the date/value rename collision), and the first
column's dates parse. -/
theorem date_column_falls_back_to_first (sid : String) (t : CsvTable)
    (hno : "DATE" ∉ t.columns) (h0 : t.columns ≠ [])
    (h1 : sid ∈ t.columns ∨ 2 ≤ t.columns.length)
    (hren : (renamedColumns sid t.columns).count "date" = 1 ∧
      (renamedColumns sid t.columns).count "value" = 1)
    (hgood : t.rows.any (dateRaises 0) = false) :
    load_fred_series sid t =
      Except.ok (t.rows.filterMap (parsedRow 0 (vIdx sid t.columns))) := by
  have hd : dIdx t.columns = 0 := by
    unfold dIdx
    rw [if_neg hno]
  unfold load_fred_series
  rw [if_neg h0]
  have h1n : ¬ (sid ∉ t.columns ∧ t.columns.length < 2) := by
    rintro ⟨ha, hb⟩
    rcases h1 with h | h
    · exact ha h
    · omega
  rw [if_neg h1n]
  have hrn : ¬ ((renamedColumns sid t.columns).count "date" ≠ 1 ∨
      (renamedColumns sid t.columns).count "value" ≠ 1) := by
    push_neg
    exact hren
  rw [if_neg hrn, hd, hgood]
  simp

/-- Witness for the amended C8 statement on the alias-free response. -/
theorem date_column_falls_back_to_first_witness :
    load_fred_series "VAL" tblNoAlias =
      Except.ok
        (tblNoAlias.rows.filterMap (parsedRow 0 (vIdx "VAL" tblNoAlias.columns))) :=
  date_column_falls_back_to_first "VAL" tblNoAlias (by decide) (by decide)
    (Or.inl (by decide)) ⟨by decide, by decide⟩ (by decide)

/-- C9 counterexample: the fetcher returns the rows in response order
without sorting or deduplicating, so an out-of-order response with a
repeated date yields a series violating the sorted/unique invariant. -/
theorem load_fred_series_output_unsorted :
    load_fred_series "VAL" tblUnsorted =
        Except.ok [(2, (5 : ℚ)), (1, 6), (1, 8)] ∧
      ¬ datesStrictMono [(2, (5 : ℚ)), (1, 6), (1, 8)] := by
  constructor
  · rfl
  · unfold datesStrictMono
    decide

/-- C9 (amended): every returned row has a (non-null) parsed date and
value by construction, and the returned dates are strictly increasing
— unique and chronologically sorted — whenever the parsed dates of the
source rows are; the fetcher itself neither sorts nor deduplicates. -/
theorem load_fred_series_sorted_of_source_sorted (sid : String)
    (t : CsvTable) (l : List (Nat × ℚ))
    (hok : load_fred_series sid t = Except.ok l)
    (hs : (parsedDates (dIdx t.columns) t).Pairwise (fun a b => a < b)) :
    datesStrictMono l := by
  unfold load_fred_series at hok
  split at hok
  · exact Except.noConfusion hok
  · split at hok
    · exact Except.noConfusion hok
    · split at hok
      · exact Except.noConfusion hok
      · split at hok
        · exact Except.noConfusion hok
        · have hl : l =
              t.rows.filterMap
                (parsedRow (dIdx t.columns) (vIdx sid t.columns)) := by
            injection hok with h
            exact h.symm
          subst hl
          unfold datesStrictMono
          unfold parsedDates at hs
          exact List.Pairwise.sublist (map_fst_filterMap_sublist _ _ _) hs

/-- Witness for the amended C9 statement on a sorted response. -/
theorem load_fred_series_sorted_of_source_sorted_witness :
    datesStrictMono [(1, (5 : ℚ)), (2, 6)] :=
  load_fred_series_sorted_of_source_sorted "VAL" tblSorted
    [(1, (5 : ℚ)), (2, 6)] rfl (by decide)

/-! ## Merge and scoring theorems -/

/-- C1: every row of the merged frame returned by `load_all_fred` has a
non-missing value in every one of the five catalog columns; rows with
any missing catalog value are discarded by the final `dropna()`. -/
theorem load_all_fred_rows_complete (s1 s2 s3 s4 s5 : List (Nat × ℚ))
    (start : Nat) (r : MRow)
    (h : r ∈ load_all_fred s1 s2 s3 s4 s5 start) :
    r.tga.isSome = true ∧ r.walcl.isSome = true ∧ r.soma.isSome = true ∧
      r.wresbal.isSome = true ∧ r.rrp.isSome = true := by
  simp only [load_all_fred, dropna] at h
  have hc := (List.mem_filter.mp h).2
  unfold complete at hc
  simp only [Bool.and_eq_true] at hc
  exact ⟨hc.1.1.1.1, hc.1.1.1.2, hc.1.1.2, hc.1.2, hc.2⟩

/-- Witness for C1: a complete row survives the merge of five
one-point series. -/
theorem load_all_fred_rows_complete_witness :
    (⟨0, some 1, some 2, some 3, some 4, some 5⟩ : MRow).tga.isSome = true ∧
      (⟨0, some 1, some 2, some 3, some 4, some 5⟩ : MRow).walcl.isSome = true ∧
      (⟨0, some 1, some 2, some 3, some 4, some 5⟩ : MRow).soma.isSome = true ∧
      (⟨0, some 1, some 2, some 3, some 4, some 5⟩ : MRow).wresbal.isSome = true ∧
      (⟨0, some 1, some 2, some 3, some 4, some 5⟩ : MRow).rrp.isSome = true :=
  load_all_fred_rows_complete [(0, 1)] [(0, 2)] [(0, 3)] [(0, 4)] [(0, 5)] 0
    ⟨0, some 1, some 2, some 3, some 4, some 5⟩ (by decide)

/-- C2: the z-score divisor `std or 1e-9` is always strictly positive —
never zero, so no z-score is infinite — and when the computed standard
deviation is zero the small positive epsilon `1e-9` is substituted. -/
theorem std_epsilon_substitution (xs : List ℚ) :
    0 < stdOr xs ∧ (pstd xs = 0 → stdOr xs = 1 / 1000000000) := by
  constructor
  · unfold stdOr
    by_cases h : pstd xs = 0
    · rw [if_pos h]
      norm_num
    · rw [if_neg h]
      have h0 : 0 ≤ pstd xs := by
        unfold pstd
        exact Real.sqrt_nonneg _
      exact lt_of_le_of_ne h0 (Ne.symm h)
  · intro h
    unfold stdOr
    rw [if_pos h]

/-- Witness for C2: a constant column has standard deviation zero, the
epsilon is substituted and the divisor is positive. -/
theorem std_epsilon_substitution_witness :
    stdOr [5, 5, 5] = 1 / 1000000000 ∧ 0 < stdOr [5, 5, 5] := by
  have hv : pstd [5, 5, 5] = 0 := by
    unfold pstd
    have h : sampleVar [5, 5, 5] = 0 := by norm_num [sampleVar, meanQ]
    rw [h]
    simp
  exact ⟨(std_epsilon_substitution [5, 5, 5]).2 hv,
    (std_epsilon_substitution [5, 5, 5]).1⟩

/-- C6: holding the column mean and a positive standard deviation
fixed, a strictly larger raw TGA value gives a strictly smaller TGA
contribution to `liquidity_z` (the z-score is sign-inverted). -/
theorem tga_raw_increase_decreases_contribution (mean : ℚ) (std : ℝ)
    (x1 x2 : ℚ) (hstd : 0 < std) (hx : x1 < x2) :
    tgaContribution x2 mean std < tgaContribution x1 mean std := by
  unfold tgaContribution zScore
  have hc : ((x1 : ℝ) - (mean : ℝ)) < ((x2 : ℝ) - (mean : ℝ)) := by
    have hx2 : (x1 : ℝ) < (x2 : ℝ) := by exact_mod_cast hx
    linarith
  have hd := (div_lt_div_iff_of_pos_right hstd).mpr hc
  linarith

/-- Witness for C6 at mean 0, standard deviation 1, raw values 0 < 1. -/
theorem tga_raw_increase_decreases_contribution_witness :
    (0 : ℝ) < 1 ∧ (0 : ℚ) < 1 ∧
      tgaContribution 1 0 1 < tgaContribution 0 0 1 :=
  ⟨one_pos, by norm_num,
    tga_raw_increase_decreases_contribution 0 1 0 1 one_pos (by norm_num)⟩

/-- C10: `compute_liquidity_scores` keeps the date column and all five
raw catalog columns of its input with exactly the same values and in
the same row order (the model is pure, as the source operates on
`df.copy()`); only derived columns are added. -/
theorem compute_preserves_input_frame (rows : List CRow) :
    (compute_liquidity_scores rows).map
        (fun s => (s.date, s.tga, s.walcl, s.soma, s.wresbal, s.rrp)) =
      rows.map (fun r => (r.date, r.tga, r.walcl, r.soma, r.wresbal, r.rrp)) := by
  unfold compute_liquidity_scores
  rw [List.map_map]
  rfl

/-! ## Percentile-rank lemmas -/

/-- Strictly-below count plus tie count is the at-or-below count. -/
theorem countLT_add_countEQ (xs : List ℝ) (x : ℝ) :
    countLT xs x + countEQ xs x = xs.countP (fun y => decide (y ≤ x)) := by
  induction xs with
  | nil => simp [countLT, countEQ]
  | cons a l ih =>
    simp only [countLT, countEQ, List.countP_cons] at ih ⊢
    rcases lt_trichotomy a x with h | h | h
    · have h1 : a ≤ x := le_of_lt h
      have h2 : ¬ a = x := ne_of_lt h
      simp [h, h1, h2]
      omega
    · subst h
      simp [lt_irrefl]
      omega
    · have h1 : ¬ a < x := not_lt_of_gt h
      have h2 : ¬ a = x := ne_of_gt h
      have h3 : ¬ a ≤ x := not_le_of_gt h
      simp [h1, h2, h3]
      omega

/-- The average rank is monotone in its argument. -/
theorem rankAvg_le_rankAvg (xs : List ℝ) {x y : ℝ} (h : x ≤ y) :
    rankAvg xs x ≤ rankAvg xs y := by
  rcases eq_or_lt_of_le h with rfl | hlt
  · exact le_refl _
  · have hsub : xs.countP (fun a => decide (a ≤ x)) ≤ countLT xs y := by
      unfold countLT
      apply List.countP_mono_left
      intro a _ ha
      simp only [decide_eq_true_eq] at ha ⊢
      exact lt_of_le_of_lt ha hlt
    have h1 : countLT xs x + countEQ xs x ≤ countLT xs y := by
      rw [countLT_add_countEQ]
      exact hsub
    unfold rankAvg
    have h2 : ((countLT xs x : ℝ)) + (countEQ xs x : ℝ) ≤
        (countLT xs y : ℝ) := by exact_mod_cast h1
    have h3 : (0 : ℝ) ≤ (countEQ xs x : ℝ) := Nat.cast_nonneg _
    have h4 : (0 : ℝ) ≤ (countEQ xs y : ℝ) := Nat.cast_nonneg _
    linarith

/-- For a member of the list, the average rank lies in `[1, n]`. -/
theorem rankAvg_bounds (xs : List ℝ) (x : ℝ) (hx : x ∈ xs) :
    1 ≤ rankAvg xs x ∧ rankAvg xs x ≤ (xs.length : ℝ) := by
  have hEQ : 1 ≤ countEQ xs x := by
    have hpos : 0 < xs.countP (fun y => decide (y = x)) :=
      List.countP_pos_iff.mpr ⟨x, hx, by simp⟩
    unfold countEQ
    omega
  have hlen : countLT xs x + countEQ xs x ≤ xs.length := by
    rw [countLT_add_countEQ]
    exact List.countP_le_length _
  unfold rankAvg
  constructor
  · have h1 : (1 : ℝ) ≤ (countEQ xs x : ℝ) := by exact_mod_cast hEQ
    have h2 : (0 : ℝ) ≤ (countLT xs x : ℝ) := Nat.cast_nonneg _
    linarith
  · have h1 : ((countLT xs x : ℝ)) + (countEQ xs x : ℝ) ≤
        (xs.length : ℝ) := by exact_mod_cast hlen
    have h2 : (1 : ℝ) ≤ (countEQ xs x : ℝ) := by exact_mod_cast hEQ
    linarith

/-- C5: every `liquidity_index` value produced by
`compute_liquidity_scores` lies in the closed interval `[0, 100]`. -/
theorem liquidity_index_in_0_100 (rows : List CRow) (s : SRow)
    (hs : s ∈ compute_liquidity_scores rows) :
    0 ≤ s.liquidity_index ∧ s.liquidity_index ≤ 100 := by
  unfold compute_liquidity_scores at hs
  rcases List.mem_map.mp hs with ⟨r, hr, rfl⟩
  have hmem : liqRow rows r ∈ rows.map (liqRow rows) :=
    List.mem_map_of_mem _ hr
  have hb := rankAvg_bounds (rows.map (liqRow rows)) (liqRow rows r) hmem
  have hne : rows.map (liqRow rows) ≠ [] := by
    simp only [ne_eq, List.map_eq_nil_iff]
    exact List.ne_nil_of_mem hr
  have hn : (0 : ℝ) < ((rows.map (liqRow rows)).length : ℝ) := by
    exact_mod_cast List.length_pos.mpr hne
  constructor
  · show 0 ≤ rankPct (rows.map (liqRow rows)) (liqRow rows r) * 100
    apply mul_nonneg _ (by norm_num)
    unfold rankPct
    exact div_nonneg (le_trans zero_le_one hb.1) (le_of_lt hn)
  · show rankPct (rows.map (liqRow rows)) (liqRow rows r) * 100 ≤ 100
    unfold rankPct
    have hle1 : rankAvg (rows.map (liqRow rows)) (liqRow rows r) /
        ((rows.map (liqRow rows)).length : ℝ) ≤ 1 :=
      (div_le_one hn).mpr hb.2
    linarith

/-- Witness for C5 on a concrete one-observation frame. -/
theorem liquidity_index_in_0_100_witness :
    0 ≤ (compute_liquidity_scores demoRows).headI.liquidity_index ∧
      (compute_liquidity_scores demoRows).headI.liquidity_index ≤ 100 :=
  liquidity_index_in_0_100 demoRows _
    (by simp [compute_liquidity_scores, demoRows])

/-- C4: within one scored frame, `liquidity_index` is monotone
non-decreasing in `liquidity_z` (percentile-rank property). -/
theorem liquidity_index_monotone_in_z (rows : List CRow) (s1 s2 : SRow)
    (h1 : s1 ∈ compute_liquidity_scores rows)
    (h2 : s2 ∈ compute_liquidity_scores rows)
    (hz : s1.liquidity_z ≤ s2.liquidity_z) :
    s1.liquidity_index ≤ s2.liquidity_index := by
  unfold compute_liquidity_scores at h1 h2
  rcases List.mem_map.mp h1 with ⟨r1, hr1, rfl⟩
  rcases List.mem_map.mp h2 with ⟨r2, hr2, rfl⟩
  have hz2 : liqRow rows r1 ≤ liqRow rows r2 := hz
  have hmono := rankAvg_le_rankAvg (rows.map (liqRow rows)) hz2
  have hn : (0 : ℝ) < ((rows.map (liqRow rows)).length : ℝ) := by
    have hne : rows.map (liqRow rows) ≠ [] := by
      simp only [ne_eq, List.map_eq_nil_iff]
      exact List.ne_nil_of_mem hr1
    exact_mod_cast List.length_pos.mpr hne
  show rankPct (rows.map (liqRow rows)) (liqRow rows r1) * 100 ≤
    rankPct (rows.map (liqRow rows)) (liqRow rows r2) * 100
  unfold rankPct
  have hq := (div_le_div_iff_of_pos_right hn).mpr hmono
  nlinarith

/-- Witness for C4 on the concrete frame, at the (reflexive) pair of
its first scored row. -/
theorem liquidity_index_monotone_in_z_witness :
    (compute_liquidity_scores demoRows).headI.liquidity_index ≤
      (compute_liquidity_scores demoRows).headI.liquidity_index :=
  liquidity_index_monotone_in_z demoRows _ _
    (by simp [compute_liquidity_scores, demoRows])
    (by simp [compute_liquidity_scores, demoRows])
    (le_refl _)

/-! ## Overlay theorems -/

/-- C7: each joined series is divided by its own value at the first row
of the *joined* range, so (for a nonzero anchor value) both rebased
series are exactly 1 at the declared anchor row. -/
theorem overlay_rebase_anchor_is_one (df : List SRow)
    (sp : List (Nat × ℚ)) (r : OverlayRow) (rs : List OverlayRow)
    (h : overlayTab df sp = r :: rs)
    (hl : r.liquidity_index ≠ 0) (hp : r.price ≠ 0) :
    r.liq_rebase = 1 ∧ r.sp_rebase = 1 := by
  unfold overlayTab at h
  cases hj : innerJoin df sp with
  | nil =>
    rw [hj] at h
    exact absurd h (by simp)
  | cons q0 tl =>
    rw [hj] at h
    simp only [List.map_cons] at h
    injection h with hh1 hh2
    rw [← hh1] at hl hp ⊢
    constructor
    · exact div_self hl
    · have hpr : ((q0.2.2 : ℚ) : ℝ) ≠ 0 := by exact_mod_cast hp
      exact div_self hpr

/-- Witness for C7 on a one-row joined overlay: both rebased values at
the anchor row are 1. -/
theorem overlay_rebase_anchor_is_one_witness :
    (⟨0, 50, 2, (50 : ℝ) / (50 : ℝ),
        ((2 : ℚ) : ℝ) / ((2 : ℚ) : ℝ)⟩ : OverlayRow).liq_rebase = 1 ∧
      (⟨0, 50, 2, (50 : ℝ) / (50 : ℝ),
        ((2 : ℚ) : ℝ) / ((2 : ℚ) : ℝ)⟩ : OverlayRow).sp_rebase = 1 :=
  overlay_rebase_anchor_is_one demoScored demoPrices _ [] rfl
    (by norm_num) (by norm_num)

end LiquidityDashboard
